import Mathlib

/-!
Verification of the email2print ingestion/classification/dispatch pipeline
(src/print_email.py) against its natural-language specification.

Shallow embedding conventions:
- Byte strings are `List Nat` (one entry per byte).
- Filenames and header values are modelled after MIME-word decoding
  (`decode_mime_words` is treated as already applied to the stored strings).
- External effects (the subprocess running `lp`, `os.remove`, the IMAP
  connection attempts) are driven by explicit oracles passed as arguments;
  each Python exception that matters is a constructor of `PyExc`.
- `bytes.decode(errors="ignore")` is modelled for ASCII payloads by
  `asciiDecode` (non-ASCII bytes dropped).
-/

/-- Whitespace bytes stripped by Python `bytes.strip()`. -/
def isWsByte (b : Nat) : Bool :=
  b == 32 || b == 9 || b == 10 || b == 13 || b == 11 || b == 12

/-- Whitespace characters stripped by Python `str.strip()` (ASCII subset). -/
def isWsChar (c : Char) : Bool :=
  c == ' ' || c == Char.ofNat 9 || c == Char.ofNat 10 || c == Char.ofNat 13 ||
  c == Char.ofNat 11 || c == Char.ofNat 12

/-- `not payload or payload.strip() == b""` from the main part loop:
true when the payload is `None`, empty, or all-whitespace bytes. -/
def blankPayload : Option (List Nat) → Bool
  | none => true
  | some p => p.all isWsByte

/-- Index of the last character satisfying `p` (Python `str.rfind`). -/
def lastIdx (p : Char → Bool) (cs : List Char) : Option Nat :=
  (cs.foldl (fun st c => (st.1 + 1, if p c then some st.1 else st.2))
    ((0 : Nat), (none : Option Nat))).2

/-- The extension component returned by `os.path.splitext(s)[1]` (posixpath):
the suffix starting at the last dot, provided that dot lies after the last
slash and at least one non-dot character of the basename precedes it. -/
def splitextExt (s : String) : String :=
  let cs := s.data
  let b := match lastIdx (fun c => c == '/') cs with
    | none => 0
    | some k => k + 1
  match lastIdx (fun c => c == '.') cs with
  | none => ""
  | some d =>
    if b ≤ d then
      if ((cs.drop b).take (d - b)).any (fun c => c != '.') then
        String.mk (cs.drop d)
      else ""
    else ""

/-- Python `str.lower()` (ASCII abstraction), character by character. -/
def pyLower (s : String) : String :=
  String.mk (s.data.map Char.toLower)

/-- Python `s.split("@")[-1]`: the suffix after the last `@`, or the whole
string when it has none. -/
def afterLastAt (s : String) : String :=
  String.mk ((s.data.reverse.takeWhile (fun c => c != '@')).reverse)

/-- `os.path.splitext(fname)[1].lower().lstrip(".")` as used for the
attachment extension in both passes of `process_email`. -/
def extOf (fname : String) : String :=
  String.mk ((pyLower (splitextExt fname)).data.dropWhile (fun c => c == '.'))

/-- Python truthiness of `part.get_filename()`: present and non-empty. -/
def filenameTruthy : Option String → Bool
  | none => false
  | some f => !(f == "")

/-- `part.get_content_maintype()`: the content type up to the slash. -/
def maintypeOf (ct : String) : String :=
  String.mk (ct.data.takeWhile (fun c => c != '/'))

/-- Length bound for `List.dropWhile`, used for termination below. -/
theorem dropWhile_len_le (p : Char → Bool) :
    ∀ l : List Char, (l.dropWhile p).length ≤ l.length := by
  intro l
  induction l with
  | nil => simp [List.dropWhile]
  | cons a t ih =>
    simp only [List.dropWhile]
    cases p a <;> simp <;> omega

/-- One application of the regex `<[^>]+>` removal of `re.sub`: deletes every
leftmost occurrence of a `<`, at least one non-`>` character, then `>`. -/
def stripTags : List Char → List Char
  | [] => []
  | c :: rest =>
    if c = '<' then
      match h : rest.dropWhile (fun x => x != '>') with
      | [] => c :: stripTags rest
      | _ :: rest2 =>
        if rest.takeWhile (fun x => x != '>') = [] then c :: stripTags rest
        else stripTags rest2
    else c :: stripTags rest
  termination_by cs => cs.length
  decreasing_by
  all_goals simp only [List.length_cons]
  all_goals first
    | omega
    | (have hle := dropWhile_len_le (fun x => x != '>') rest
       rw [h] at hle
       simp only [List.length_cons] at hle
       omega)

/-- `is_mostly_html_blank`: strip `<[^>]+>` tags, then `strip()`; blank when
nothing but whitespace remains. -/
def is_mostly_html_blank (html : String) : Bool :=
  (stripTags html.data).all isWsChar

/-- `bytes.decode(errors="ignore")` restricted to ASCII payloads: bytes below
128 become characters, others are dropped (abstraction of UTF-8 decoding). -/
def asciiDecode (bs : List Nat) : String :=
  String.mk (bs.filterMap (fun b => if b < 128 then some (Char.ofNat b) else none))

/-- The single-quote character, used in the dispatch log label. -/
def sQuote : String := String.singleton (Char.ofNat 39)

/-- Outcome of one `subprocess.run(["lp", ...], check=True)` invocation. -/
inductive RunOutcome where
  | exitZero
  | exitNonZero
  | invocationError
  deriving Repr, DecidableEq

/-- The Python exceptions the model distinguishes. All of them are
`Exception` subclasses, hence caught by `except Exception` in `main_loop`. -/
inductive PyExc where
  | osError
  | imapError
  | attributeError
  deriving Repr, DecidableEq

/-- Result of `print_file` / `print_content` seen from the caller: a normal
boolean return, or a Python exception propagating out. -/
inductive PCResult where
  | ok (b : Bool)
  | raised (e : PyExc)
  deriving Repr, DecidableEq

/-- A leaf or container node of the MIME tree, in `msg.walk()` order.
`contentType` is the lower-cased full type from `get_content_type()`;
`filename` is the decoded `get_filename()`; `payload` is
`get_payload(decode=True)` (`none` for containers). -/
structure EmailPart where
  contentType : String
  filename : Option String
  payload : Option (List Nat)
  deriving Repr, DecidableEq

/-- A fetched message: the address component parsed from the From header
(before lower-casing) and the walk-order part list. -/
structure EmailMsg where
  fromAddr : String
  subject : String
  parts : List EmailPart
  deriving Repr, DecidableEq

/-- The configuration slice read by `process_email` and `print_content`. -/
structure ProcCfg where
  allowedRecipients : List String
  allowedTypes : List String
  maxBytes : Nat
  detailedConfirmation : Bool
  deriving Repr, DecidableEq

/-- `extract_sender`: the parsed From address, lower-cased. -/
def extract_sender (m : EmailMsg) : String := pyLower m.fromAddr

/-- `is_sender_allowed`: deny on an empty list, else exact match, else
domain wildcard match on `"@" + from_addr.split("@")[-1]`. -/
def is_sender_allowed (allowed : List String) (from_addr : String) : Bool :=
  if allowed.isEmpty then false
  else if from_addr ∈ allowed then true
  else if ("@" ++ afterLastAt from_addr) ∈ allowed then true
  else false

/-- Full observable trace of one `print_content` call. -/
structure PCTrace where
  sizeRejected : Bool
  artifactCreated : Bool
  writtenPayload : Option (List Nat)
  printInvoked : Bool
  removeAttempted : Bool
  artifactPresentAfter : Bool
  result : PCResult
  deriving Repr, DecidableEq

/-- `print_file`: runs `lp`; catches only `subprocess.CalledProcessError`
(non-zero exit). An invocation error (`OSError`) is not caught. -/
def print_file (o : RunOutcome) : PCResult :=
  match o with
  | .exitZero => .ok true
  | .exitNonZero => .ok false
  | .invocationError => .raised .osError

/-- `print_content(payload, suffix, description)`: size guard, then create
and write the transient file, invoke `print_file`, then attempt `os.remove`
(outside any `finally`; skipped when `print_file` raised; its own failure is
caught and logged). `ro` is the subprocess outcome, `rm` whether the remove
succeeds. -/
def print_content (maxBytes : Nat) (payload : List Nat) (ro : RunOutcome) (rm : Bool) : PCTrace :=
  if payload.length > maxBytes then
    { sizeRejected := true, artifactCreated := false, writtenPayload := none,
      printInvoked := false, removeAttempted := false, artifactPresentAfter := false,
      result := .ok false }
  else
    match print_file ro with
    | .raised e =>
      { sizeRejected := false, artifactCreated := true, writtenPayload := some payload,
        printInvoked := true, removeAttempted := false, artifactPresentAfter := true,
        result := .raised e }
    | .ok succ =>
      { sizeRejected := false, artifactCreated := true, writtenPayload := some payload,
        printInvoked := true, removeAttempted := true, artifactPresentAfter := !rm,
        result := .ok succ }

/-- First pass of `process_email`: `has_valid_attachments` is set when some
non-multipart part has a truthy filename whose extension passes the
allow-list (payloads are never inspected here). -/
def has_valid_attachments (allowed : List String) : List EmailPart → Bool
  | [] => false
  | p :: rest =>
    if maintypeOf p.contentType = "multipart" then has_valid_attachments allowed rest
    else if filenameTruthy p.filename then
      if allowed.isEmpty || allowed.contains (extOf (p.filename.getD "")) then true
      else has_valid_attachments allowed rest
    else has_valid_attachments allowed rest

/-- Whether a part is selected as an attachment or as a body. -/
inductive PKind where
  | attachment
  | body
  deriving Repr, DecidableEq

/-- One `print_content` call made by the main pass of `process_email`:
the label/description and suffix passed in, the source filename and
content type of the part, the payload, and the boolean outcome. -/
structure DispatchRec where
  kind : PKind
  description : String
  suffix : String
  srcFilename : Option String
  srcContentType : String
  payload : List Nat
  success : Bool
  deriving Repr, DecidableEq

/-- The log label used as `print_content` description for an attachment. -/
def attachLabel (filename : String) : String :=
  "attachment " ++ sQuote ++ filename ++ sQuote

/-- The log label used as `print_content` description for a body part. -/
def bodyLabel (ct : String) : String :=
  "email body (" ++ ct ++ ")"

/-- State coming out of the main `for part in msg.walk()` loop:
dispatch records, the `printed_files` list, the `printed_any` flag, the
next print-invocation index, and an exception that escaped the loop. -/
structure LoopOut where
  dispatches : List DispatchRec
  printed_files : List String
  printed_any : Bool
  nextIdx : Nat
  exc : Option PyExc
  deriving Repr, DecidableEq

/-- The main pass of `process_email` over the walked parts. `hv` is the
precomputed `has_valid_attachments`; `ro`/`rm` are the subprocess and
`os.remove` oracles indexed by print-invocation count starting at `idx`. -/
def partLoop (cfg : ProcCfg) (hv : Bool) (ro : Nat → RunOutcome) (rm : Nat → Bool) :
    List EmailPart → Nat → LoopOut
  | [], idx => ⟨[], [], false, idx, none⟩
  | p :: rest, idx =>
    if blankPayload p.payload then
      partLoop cfg hv ro rm rest idx
    else
      let pay := p.payload.getD []
      if filenameTruthy p.filename then
        let filename := p.filename.getD ""
        let suffix := extOf filename
        if !cfg.allowedTypes.isEmpty && !cfg.allowedTypes.contains suffix then
          partLoop cfg hv ro rm rest idx
        else
          match (print_content cfg.maxBytes pay (ro idx) (rm idx)).result with
          | .raised e =>
            ⟨[⟨.attachment, attachLabel filename, suffix, some filename,
               p.contentType, pay, false⟩], [], false, idx + 1, some e⟩
          | .ok succ =>
            let out := partLoop cfg hv ro rm rest (idx + 1)
            ⟨⟨.attachment, attachLabel filename, suffix, some filename,
               p.contentType, pay, succ⟩ :: out.dispatches,
             (if succ then [filename] else []) ++ out.printed_files,
             succ || out.printed_any, out.nextIdx, out.exc⟩
      else if p.contentType = "text/plain" ∨ p.contentType = "text/html" then
        if hv then
          partLoop cfg hv ro rm rest idx
        else if p.contentType = "text/html" && is_mostly_html_blank (asciiDecode pay) then
          partLoop cfg hv ro rm rest idx
        else
          match (print_content cfg.maxBytes pay (ro idx) (rm idx)).result with
          | .raised e =>
            ⟨[⟨.body, bodyLabel p.contentType, "txt", none,
               p.contentType, pay, false⟩], [], false, idx + 1, some e⟩
          | .ok succ =>
            let out := partLoop cfg hv ro rm rest (idx + 1)
            ⟨⟨.body, bodyLabel p.contentType, "txt", none,
               p.contentType, pay, succ⟩ :: out.dispatches,
             (if succ then ["EmailBody-" ++ p.contentType] else []) ++ out.printed_files,
             succ || out.printed_any, out.nextIdx, out.exc⟩
      else
        partLoop cfg hv ro rm rest idx

/-- Content of the confirmation message composed by
`send_confirmation_email`: the captured processing log in detailed mode,
one line per printed label otherwise, or the localized
`confirmation_no_files` text ("No files were printed.") when nothing was. -/
inductive ConfirmBody where
  | detailedLog
  | printedLines (labels : List String)
  | noFiles
  deriving Repr, DecidableEq

/-- The confirmation message handed to the outbound mail connection. -/
structure Confirmation where
  recipient : String
  body : ConfirmBody
  deriving Repr, DecidableEq

/-- `send_confirmation_email(to_email, log_text, printed_files)` as content
selection (the SMTP send itself swallows every exception). -/
def send_confirmation_email (detailed : Bool) (to_email : String)
    (printed_files : List String) : Confirmation :=
  { recipient := to_email,
    body := if detailed then .detailedLog
            else if printed_files.isEmpty then .noFiles
            else .printedLines printed_files }

/-- Observable result of `process_email` on one message. -/
structure ProcessResult where
  authorized : Bool
  dispatches : List DispatchRec
  printed_files : List String
  printed_any : Bool
  confirmation : Option Confirmation
  exc : Option PyExc
  deriving Repr, DecidableEq

/-- `process_email(msg)`: sender validation first (immediate return when
denied), then the two passes over the parts, then the confirmation email —
skipped when an exception escaped the part loop. -/
def process_email (cfg : ProcCfg) (m : EmailMsg) (ro : Nat → RunOutcome)
    (rm : Nat → Bool) : ProcessResult :=
  let from_addr := extract_sender m
  if !is_sender_allowed cfg.allowedRecipients from_addr then
    { authorized := false, dispatches := [], printed_files := [],
      printed_any := false, confirmation := none, exc := none }
  else
    let hv := has_valid_attachments cfg.allowedTypes m.parts
    let lo := partLoop cfg hv ro rm m.parts 0
    match lo.exc with
    | some e =>
      { authorized := true, dispatches := lo.dispatches,
        printed_files := lo.printed_files, printed_any := lo.printed_any,
        confirmation := none, exc := some e }
    | none =>
      { authorized := true, dispatches := lo.dispatches,
        printed_files := lo.printed_files, printed_any := lo.printed_any,
        confirmation := some (send_confirmation_email cfg.detailedConfirmation
          from_addr lo.printed_files),
        exc := none }

/-- What `connect_imap_with_retry` ends in: a session from a successful
attempt, the last failure re-raised, or falling off an empty `range`
(max retries 0) returning `None`. -/
inductive ConnectResult where
  | connected (attempt : Nat)
  | raised
  | fellThrough
  deriving Repr, DecidableEq

/-- Trace of `connect_imap_with_retry`: number of connection attempts made,
the sleeps performed between attempts, and the final result. -/
structure ConnectTrace where
  attempts : Nat
  sleeps : List Nat
  result : ConnectResult
  deriving Repr, DecidableEq

/-- The `for attempt in range(MAX_IMAP_RETRIES)` loop of
`connect_imap_with_retry`. `total` is `MAX_IMAP_RETRIES`, `delay` is
`IMAP_RETRY_DELAY`, `ok i` tells whether attempt `i` (0-based) connects and
authenticates; on failure at the last attempt the exception is re-raised,
otherwise the loop sleeps `delay * (attempt + 1)` and retries. -/
def connectGo (total delay : Nat) (ok : Nat → Bool) : Nat → Nat → ConnectTrace
  | 0, _ => ⟨0, [], .fellThrough⟩
  | remaining + 1, attempt =>
    if ok attempt then ⟨1, [], .connected attempt⟩
    else if attempt = total - 1 then ⟨1, [], .raised⟩
    else
      let t := connectGo total delay ok remaining (attempt + 1)
      ⟨t.attempts + 1, delay * (attempt + 1) :: t.sleeps, t.result⟩

/-- `connect_imap_with_retry()` entered at attempt 0. -/
def connect_imap_with_retry (total delay : Nat) (ok : Nat → Bool) : ConnectTrace :=
  connectGo total delay ok total 0

/-- Configuration slice read by `main_loop` /
`connect_imap_with_retry`. `deleteAfterPrint` selects mark-for-deletion
versus flag-seen after each message (both modelled as raise-free store
updates). -/
structure CycleCfg where
  maxRetries : Nat
  retryDelay : Nat
  sleepTime : Nat
  deleteAfterPrint : Bool
  pcfg : ProcCfg

/-- One fetched message together with the external oracles driving its
processing. -/
structure FetchedMsg where
  msg : EmailMsg
  ro : Nat → RunOutcome
  rm : Nat → Bool

/-- Environment of one polling cycle: connection attempt outcomes, whether
folder selection / search / fetch raise, the unseen-search result, and the
fetched messages. -/
structure CycleEnv where
  connectOk : Nat → Bool
  selectRaises : Bool
  searchRaises : Bool
  searchResult : List Nat
  fetchRaises : Bool
  fetchedMsgs : List FetchedMsg

/-- Counters accumulated inside the `try` block of one cycle, plus the
exception that escaped it, if any. -/
structure BodyOut where
  fetches : Nat
  dispatches : Nat
  notifications : Nat
  exc : Option PyExc
  deriving Repr, DecidableEq

/-- The per-message loop of `main_loop`: each message goes through
`process_email`; an exception escaping it aborts the rest of the batch. -/
def processMsgs (pcfg : ProcCfg) : List FetchedMsg → (Nat × Nat × Option PyExc)
  | [] => (0, 0, none)
  | fm :: rest =>
    let pr := process_email pcfg fm.msg fm.ro fm.rm
    let here := (pr.dispatches.length, if pr.confirmation.isSome then 1 else 0)
    match pr.exc with
    | some e => (here.1, here.2, some e)
    | none =>
      let (d, n, e) := processMsgs pcfg rest
      (here.1 + d, here.2 + n, e)

/-- The `try` block of one iteration of `main_loop`: open the session with
retries (falling through with `None` makes the `with` statement raise
`AttributeError`), select INBOX, search UNSEEN, fetch the batch once when
non-empty, process each message. -/
def cycleBody (cfg : CycleCfg) (env : CycleEnv) : BodyOut :=
  match (connect_imap_with_retry cfg.maxRetries cfg.retryDelay env.connectOk).result with
  | .raised => ⟨0, 0, 0, some PyExc.imapError⟩
  | .fellThrough => ⟨0, 0, 0, some PyExc.attributeError⟩
  | .connected _ =>
    if env.selectRaises then ⟨0, 0, 0, some PyExc.imapError⟩
    else if env.searchRaises then ⟨0, 0, 0, some PyExc.imapError⟩
    else if env.searchResult.isEmpty then ⟨0, 0, 0, none⟩
    else if env.fetchRaises then ⟨0, 0, 0, some PyExc.imapError⟩
    else
      let (d, n, e) := processMsgs cfg.pcfg env.fetchedMsgs
      ⟨1, d, n, e⟩

/-- Observable trace of one full `while True` iteration: the counters, the
`except Exception` catch flag, and the seconds slept at the end. -/
structure CycleTrace where
  fetches : Nat
  dispatches : Nat
  notifications : Nat
  caught : Bool
  slept : Nat
  deriving Repr, DecidableEq

/-- One iteration of `main_loop`: run the cycle body, catch any exception at
the boundary, then always `time.sleep(SLEEP_TIME)`. -/
def runCycle (cfg : CycleCfg) (env : CycleEnv) : CycleTrace :=
  let b := cycleBody cfg env
  ⟨b.fetches, b.dispatches, b.notifications, b.exc.isSome, cfg.sleepTime⟩

/-- The infinite polling loop as a stream of cycle traces: cycle `n` runs in
environment `envs n`. Totality of this function is the non-termination
contract: every cycle yields a trace and the loop proceeds to cycle `n+1`. -/
def main_loop_trace (cfg : CycleCfg) (envs : Nat → CycleEnv) (n : Nat) : CycleTrace :=
  runCycle cfg (envs n)

/-- Whether the session failed to open (either re-raised after the retries,
or `None` from an empty retry range). -/
def sessionOpenFailed (cfg : CycleCfg) (env : CycleEnv) : Bool :=
  match (connect_imap_with_retry cfg.maxRetries cfg.retryDelay env.connectOk).result with
  | .connected _ => false
  | _ => true

/-- C4: an oversized payload is rejected before any file-system or process
work: no artifact, no write, no print invocation, and a false return. -/
theorem claim_C4 (maxBytes : Nat) (payload : List Nat) (ro : RunOutcome) (rm : Bool)
    (h : payload.length > maxBytes) :
    (print_content maxBytes payload ro rm).artifactCreated = false ∧
    (print_content maxBytes payload ro rm).writtenPayload = none ∧
    (print_content maxBytes payload ro rm).printInvoked = false ∧
    (print_content maxBytes payload ro rm).result = PCResult.ok false := by
  simp [print_content, h]

/-- Witness for C4 at a concrete oversized payload. -/
theorem claim_C4_witness :
    (print_content 1 [0, 0] RunOutcome.exitZero true).artifactCreated = false ∧
    (print_content 1 [0, 0] RunOutcome.exitZero true).writtenPayload = none ∧
    (print_content 1 [0, 0] RunOutcome.exitZero true).printInvoked = false ∧
    (print_content 1 [0, 0] RunOutcome.exitZero true).result = PCResult.ok false :=
  claim_C4 1 [0, 0] RunOutcome.exitZero true (by decide)

/-- C5 counterexample: the artifact is NOT absent on every path. When the
print invocation raises an invocation error, no deletion is attempted and
the artifact survives; when `os.remove` itself fails, `print_content`
returns with the artifact still present. -/
theorem claim_C5_counterexample :
    ((print_content 100 [65] RunOutcome.invocationError true).artifactCreated = true ∧
     (print_content 100 [65] RunOutcome.invocationError true).removeAttempted = false ∧
     (print_content 100 [65] RunOutcome.invocationError true).artifactPresentAfter = true) ∧
    ((print_content 100 [65] RunOutcome.exitNonZero false).artifactCreated = true ∧
     (print_content 100 [65] RunOutcome.exitNonZero false).artifactPresentAfter = true ∧
     (print_content 100 [65] RunOutcome.exitNonZero false).result = PCResult.ok false) := by
  decide

/-- C5 amended: for every dispatch that creates a transient artifact, if the
print invocation returns an exit status (zero or non-zero) then deletion of
the artifact is attempted before dispatch returns and the artifact is absent
whenever the deletion succeeds; a deletion failure never changes the
reported result; if the print invocation raises an invocation error, the
exception propagates and no deletion is attempted. -/
theorem claim_C5_amended (maxBytes : Nat) (payload : List Nat) (ro : RunOutcome) (rm : Bool)
    (hsz : payload.length ≤ maxBytes) :
    (print_content maxBytes payload ro rm).artifactCreated = true ∧
    (print_content maxBytes payload ro rm).result =
      (print_content maxBytes payload ro true).result ∧
    (ro ≠ RunOutcome.invocationError →
      (print_content maxBytes payload ro rm).removeAttempted = true ∧
      (rm = true → (print_content maxBytes payload ro rm).artifactPresentAfter = false)) ∧
    (ro = RunOutcome.invocationError →
      (print_content maxBytes payload ro rm).removeAttempted = false ∧
      (print_content maxBytes payload ro rm).artifactPresentAfter = true) := by
  have hlt : ¬ payload.length > maxBytes := by omega
  cases ro <;> cases rm <;> simp [print_content, print_file, hlt]

/-- Witness for C5 amended at a concrete dispatch whose deletion fails. -/
theorem claim_C5_witness :
    (print_content 10 [65] RunOutcome.exitZero false).artifactCreated = true ∧
    (print_content 10 [65] RunOutcome.exitZero false).result =
      (print_content 10 [65] RunOutcome.exitZero true).result ∧
    (print_content 10 [65] RunOutcome.exitZero false).removeAttempted = true := by
  have h := claim_C5_amended 10 [65] RunOutcome.exitZero false (by decide)
  exact ⟨h.1, h.2.1, (h.2.2.1 (by decide)).1⟩

/-- C6 counterexample: an invocation error of the print subprocess (an
`OSError`, e.g. the `lp` binary missing) is not caught by `print_file`,
which handles only `CalledProcessError`; it propagates past the dispatch
boundary instead of being translated into a false result. -/
theorem claim_C6_counterexample :
    (print_content 100 [66] RunOutcome.invocationError true).result =
      PCResult.raised PyExc.osError ∧
    (print_content 100 [66] RunOutcome.invocationError true).result ≠
      PCResult.ok false := by
  decide

/-- C6 amended: dispatch returns true exactly when the payload passes the
size guard and the external print invocation exits with status zero; a
non-zero exit is translated into a false result; but an invocation error
raises past the dispatch boundary (exactly when the size guard passed). -/
theorem claim_C6_amended (maxBytes : Nat) (payload : List Nat) (ro : RunOutcome) (rm : Bool) :
    ((print_content maxBytes payload ro rm).result = PCResult.ok true ↔
      payload.length ≤ maxBytes ∧ ro = RunOutcome.exitZero) ∧
    ((∃ e, (print_content maxBytes payload ro rm).result = PCResult.raised e) ↔
      payload.length ≤ maxBytes ∧ ro = RunOutcome.invocationError) := by
  by_cases h : payload.length > maxBytes
  · have h2 : ¬ payload.length ≤ maxBytes := by omega
    cases ro <;> simp [print_content, print_file, h, h2]
  · have h2 : payload.length ≤ maxBytes := by omega
    cases ro <;> simp [print_content, print_file, h, h2]

/-- Witness for C6 amended at a concrete successful dispatch. -/
theorem claim_C6_witness :
    (print_content 5 [1, 2] RunOutcome.exitZero true).result = PCResult.ok true := by
  have h := claim_C6_amended 5 [1, 2] RunOutcome.exitZero true
  exact h.1.mpr ⟨by decide, rfl⟩

/-- All attempts from `attempt` on fail: the loop makes the remaining
attempts, sleeps linearly between them, and re-raises at the last one. -/
theorem connectGo_all_fail (total delay : Nat) (ok : Nat → Bool) :
    ∀ remaining attempt, remaining + attempt = total → 0 < remaining →
    (∀ i, attempt ≤ i → i < total → ok i = false) →
    connectGo total delay ok remaining attempt =
      ⟨remaining, (List.range (remaining - 1)).map (fun j => delay * (attempt + j + 1)),
       ConnectResult.raised⟩ := by
  intro remaining
  induction remaining with
  | zero => intro attempt _ h0 _; omega
  | succ r ih =>
    intro attempt hsum _ hfail
    have hokF : ok attempt = false := hfail attempt (Nat.le_refl _) (by omega)
    by_cases hr : r = 0
    · subst hr
      have hlast : attempt = total - 1 := by omega
      simp only [connectGo, hokF, Bool.false_eq_true, if_false]
      rw [if_pos hlast]
      simp
    · have hlastne : attempt ≠ total - 1 := by omega
      have ihh := ih (attempt + 1) (by omega) (by omega)
        (fun i h1 h2 => hfail i (by omega) h2)
      simp only [connectGo, hokF, Bool.false_eq_true, if_false, hlastne, ite_false, ihh]
      have hlist : (List.range (r + 1 - 1)).map (fun j => delay * (attempt + j + 1)) =
          delay * (attempt + 1) ::
            (List.range (r - 1)).map (fun j => delay * (attempt + 1 + j + 1)) := by
        obtain ⟨r2, rfl⟩ : ∃ r2, r = r2 + 1 := ⟨r - 1, by omega⟩
        simp only [Nat.add_sub_cancel, List.range_succ_eq_map, List.map_cons, List.map_map]
        refine congrArg₂ _ (by ring_nf) ?_
        refine List.map_congr_left (fun j _ => ?_)
        simp only [Function.comp_apply]
        refine congrArg _ (by omega)
      rw [hlist]

/-- All attempts before `k` fail and attempt `k` succeeds: the loop returns
the session at attempt `k` immediately, after the linear sleeps for the
failed attempts. -/
theorem connectGo_succeeds (total delay : Nat) (ok : Nat → Bool) :
    ∀ remaining attempt k, remaining + attempt = total → attempt ≤ k → k < total →
    (∀ i, attempt ≤ i → i < k → ok i = false) → ok k = true →
    connectGo total delay ok remaining attempt =
      ⟨k - attempt + 1, (List.range (k - attempt)).map (fun j => delay * (attempt + j + 1)),
       ConnectResult.connected k⟩ := by
  intro remaining
  induction remaining with
  | zero => intro attempt k hsum hak hk _ _; omega
  | succ r ih =>
    intro attempt k hsum hak hk hfail hok
    by_cases heq : attempt = k
    · subst heq
      simp [connectGo, hok]
    · have hlt : attempt < k := by omega
      have hokF : ok attempt = false := hfail attempt (Nat.le_refl _) hlt
      have hlastne : attempt ≠ total - 1 := by omega
      have ihh := ih (attempt + 1) k (by omega) (by omega) hk
        (fun i h1 h2 => hfail i (by omega) h2) hok
      simp only [connectGo, hokF, Bool.false_eq_true, if_false, hlastne, ite_false, ihh]
      have hatt : k - (attempt + 1) + 1 + 1 = k - attempt + 1 := by omega
      have hlist : (List.range (k - attempt)).map (fun j => delay * (attempt + j + 1)) =
          delay * (attempt + 1) ::
            (List.range (k - (attempt + 1))).map (fun j => delay * (attempt + 1 + j + 1)) := by
        obtain ⟨r2, hr2⟩ : ∃ r2, k - attempt = r2 + 1 := ⟨k - attempt - 1, by omega⟩
        rw [hr2]
        have hr2b : k - (attempt + 1) = r2 := by omega
        rw [hr2b]
        simp only [List.range_succ_eq_map, List.map_cons, List.map_map]
        refine congrArg₂ _ (by ring_nf) ?_
        refine List.map_congr_left (fun j _ => ?_)
        simp only [Function.comp_apply]
        refine congrArg _ (by omega)
      rw [hatt, hlist]

/-- C7: with `max_retries = N ≥ 1` and every attempt failing, the session
opener makes exactly `N` connection attempts, sleeps
`delay, 2*delay, ..., (N-1)*delay` between consecutive attempts, and
re-raises only after the Nth attempt; and when some attempt `k` is the
first to succeed, the session is returned immediately after `k + 1`
attempts with the linear sleeps recorded so far. -/
theorem claim_C7 (N d : Nat) (ok : Nat → Bool) (hN : 0 < N) :
    ((∀ i, i < N → ok i = false) →
      connect_imap_with_retry N d ok =
        ⟨N, (List.range (N - 1)).map (fun j => d * (j + 1)), ConnectResult.raised⟩) ∧
    (∀ k, k < N → (∀ i, i < k → ok i = false) → ok k = true →
      connect_imap_with_retry N d ok =
        ⟨k + 1, (List.range k).map (fun j => d * (j + 1)), ConnectResult.connected k⟩) := by
  constructor
  · intro hfail
    have h := connectGo_all_fail N d ok N 0 (by omega) hN (fun i _ h2 => hfail i h2)
    unfold connect_imap_with_retry
    rw [h]
    simp
  · intro k hk hfail hok
    have h := connectGo_succeeds N d ok N 0 k (by omega) (Nat.zero_le k) hk
      (fun i _ h2 => hfail i h2) hok
    unfold connect_imap_with_retry
    rw [h]
    simp

/-- Witness for C7: two failing attempts give 2 attempts, one 5-second
sleep, and a re-raise; failure then success at attempt 1 gives 2 attempts,
one sleep, and the session. -/
theorem claim_C7_witness :
    connect_imap_with_retry 2 5 (fun _ => false) =
      ⟨2, [5], ConnectResult.raised⟩ ∧
    connect_imap_with_retry 3 5 (fun i => i == 1) =
      ⟨2, [5], ConnectResult.connected 1⟩ := by
  constructor
  · have h := (claim_C7 2 5 (fun _ => false) (by decide)).1 (fun i _ => rfl)
    rw [h]
    rfl
  · have h := (claim_C7 3 5 (fun i => i == 1) (by decide)).2 1 (by decide)
      (by decide) (by decide)
    rw [h]
    rfl

/-- `is_sender_allowed` grants exactly on an exact or domain-wildcard match
(both memberships are vacuous on an empty list). -/
theorem is_sender_allowed_iff (allowed : List String) (a : String) :
    is_sender_allowed allowed a = true ↔
      a ∈ allowed ∨ ("@" ++ afterLastAt a) ∈ allowed := by
  unfold is_sender_allowed
  by_cases he : allowed.isEmpty
  · have : allowed = [] := List.isEmpty_iff.mp he
    subst this
    simp
  · rw [if_neg (by simp [he])]
    by_cases h1 : a ∈ allowed
    · simp [h1]
    · rw [if_neg h1]
      by_cases h2 : ("@" ++ afterLastAt a) ∈ allowed
      · simp [h1, h2]
      · simp [h1, h2]

/-- A denied sender short-circuits `process_email` into the empty result. -/
theorem process_email_eq_denied (cfg : ProcCfg) (m : EmailMsg)
    (ro : Nat → RunOutcome) (rm : Nat → Bool)
    (h : is_sender_allowed cfg.allowedRecipients (extract_sender m) = false) :
    process_email cfg m ro rm =
      ⟨false, [], [], false, none, none⟩ := by
  simp [process_email, h]

/-- For an authorized sender, the `process_email` fields are those of the
part loop run with the precomputed `has_valid_attachments`. -/
theorem process_email_eq_granted (cfg : ProcCfg) (m : EmailMsg)
    (ro : Nat → RunOutcome) (rm : Nat → Bool)
    (h : is_sender_allowed cfg.allowedRecipients (extract_sender m) = true) :
    (process_email cfg m ro rm).authorized = true ∧
    (process_email cfg m ro rm).dispatches =
      (partLoop cfg (has_valid_attachments cfg.allowedTypes m.parts) ro rm m.parts 0).dispatches ∧
    (process_email cfg m ro rm).printed_files =
      (partLoop cfg (has_valid_attachments cfg.allowedTypes m.parts) ro rm m.parts 0).printed_files ∧
    (process_email cfg m ro rm).printed_any =
      (partLoop cfg (has_valid_attachments cfg.allowedTypes m.parts) ro rm m.parts 0).printed_any := by
  simp only [process_email, h, Bool.not_true, Bool.false_eq_true, if_false]
  cases hx : (partLoop cfg (has_valid_attachments cfg.allowedTypes m.parts) ro rm m.parts 0).exc <;>
    simp [hx]

/-- For an authorized sender whose part loop raised no exception, the
confirmation email is composed from the accumulated `printed_files`. -/
theorem process_email_confirmation (cfg : ProcCfg) (m : EmailMsg)
    (ro : Nat → RunOutcome) (rm : Nat → Bool)
    (h : is_sender_allowed cfg.allowedRecipients (extract_sender m) = true)
    (hx : (partLoop cfg (has_valid_attachments cfg.allowedTypes m.parts) ro rm m.parts 0).exc = none) :
    (process_email cfg m ro rm).confirmation =
      some (send_confirmation_email cfg.detailedConfirmation (extract_sender m)
        (partLoop cfg (has_valid_attachments cfg.allowedTypes m.parts) ro rm m.parts 0).printed_files) := by
  simp only [process_email, h, Bool.not_true, Bool.false_eq_true, if_false, hx]

/-- When the subprocess outcome is not an invocation error, `print_content`
returns a boolean instead of raising. -/
theorem print_content_result_ok (mb : Nat) (pay : List Nat) (ro : RunOutcome) (rm : Bool)
    (h : ro ≠ RunOutcome.invocationError) :
    ∃ b, (print_content mb pay ro rm).result = PCResult.ok b := by
  by_cases hs : pay.length > mb
  · exact ⟨false, by simp [print_content, hs]⟩
  · cases ro with
    | exitZero => exact ⟨true, by simp [print_content, print_file, hs]⟩
    | exitNonZero => exact ⟨false, by simp [print_content, print_file, hs]⟩
    | invocationError => exact absurd rfl h

/-- A leaf part with a truthy filename passing the extension filter makes
the first pass set `has_valid_attachments`. -/
theorem has_valid_of_mem (allowed : List String) :
    ∀ (parts : List EmailPart) (p : EmailPart), p ∈ parts →
    maintypeOf p.contentType ≠ "multipart" → filenameTruthy p.filename = true →
    (allowed.isEmpty || allowed.contains (extOf (p.filename.getD ""))) = true →
    has_valid_attachments allowed parts = true := by
  intro parts
  induction parts with
  | nil => intro p hp; simp at hp
  | cons q rest ih =>
    intro p hp hmt hf hext
    rcases List.mem_cons.mp hp with rfl | hp2
    · simp only [has_valid_attachments]
      rw [if_neg hmt, if_pos hf, if_pos hext]
    · simp only [has_valid_attachments]
      by_cases hmt2 : maintypeOf q.contentType = "multipart"
      · rw [if_pos hmt2]
        exact ih p hp2 hmt hf hext
      · rw [if_neg hmt2]
        by_cases hf2 : filenameTruthy q.filename = true
        · rw [if_pos hf2]
          by_cases hx : (allowed.isEmpty || allowed.contains (extOf (q.filename.getD ""))) = true
          · rw [if_pos hx]
          · rw [if_neg hx]
            exact ih p hp2 hmt hf hext
        · rw [if_neg (by simp [hf2])]
          exact ih p hp2 hmt hf hext

/-- When the extension allow-list is non-empty and rejects every part that
has a truthy filename, the first pass leaves `has_valid_attachments` false
(it applies exactly the same extension filter as the main pass). -/
theorem has_valid_false_of (allowed : List String) (hne : allowed ≠ []) :
    ∀ parts : List EmailPart,
    (∀ p ∈ parts, filenameTruthy p.filename = true →
      allowed.contains (extOf (p.filename.getD "")) = false) →
    has_valid_attachments allowed parts = false := by
  intro parts
  induction parts with
  | nil => intro _; rfl
  | cons q rest ih =>
    intro h
    have hrest := ih (fun p hp hf => h p (List.mem_cons_of_mem _ hp) hf)
    simp only [has_valid_attachments]
    by_cases hmt : maintypeOf q.contentType = "multipart"
    · rw [if_pos hmt]
      exact hrest
    · rw [if_neg hmt]
      by_cases hf : filenameTruthy q.filename = true
      · rw [if_pos hf]
        have hc := h q (List.mem_cons_self _ _) hf
        have hemp : allowed.isEmpty = false := by
          cases allowed with
          | nil => exact absurd rfl hne
          | cons a t => rfl
        have hnotmem : extOf (q.filename.getD "") ∉ allowed := by simpa using hc
        rw [if_neg (by simp [hemp, hnotmem])]
        exact hrest
      · rw [if_neg (by simp [hf])]
        exact hrest

/-- With `has_valid_attachments` true, the main pass never dispatches a
body part: bodies are suppressed on the `continue` branch. -/
theorem partLoop_no_body (cfg : ProcCfg) (ro : Nat → RunOutcome) (rm : Nat → Bool) :
    ∀ (parts : List EmailPart) (idx : Nat),
    ∀ d ∈ (partLoop cfg true ro rm parts idx).dispatches, d.kind = PKind.attachment := by
  intro parts
  induction parts with
  | nil => intro idx d hd; simp [partLoop] at hd
  | cons p rest ih =>
    intro idx d hd
    simp only [partLoop] at hd
    by_cases hb : blankPayload p.payload = true
    · rw [if_pos hb] at hd
      exact ih idx d hd
    · rw [if_neg hb] at hd
      by_cases hf : filenameTruthy p.filename = true
      · rw [if_pos hf] at hd
        by_cases hx : (!cfg.allowedTypes.isEmpty &&
            !cfg.allowedTypes.contains (extOf (p.filename.getD ""))) = true
        · rw [if_pos hx] at hd
          exact ih idx d hd
        · rw [if_neg hx] at hd
          cases hpc : (print_content cfg.maxBytes (p.payload.getD [])
              (ro idx) (rm idx)).result with
          | raised e =>
            simp only [hpc] at hd
            simp at hd
            subst hd
            rfl
          | ok succ =>
            simp only [hpc] at hd
            simp only [List.mem_cons] at hd
            rcases hd with rfl | hd2
            · rfl
            · exact ih (idx + 1) d hd2
      · rw [if_neg (by simp [hf])] at hd
        by_cases hct : p.contentType = "text/plain" ∨ p.contentType = "text/html"
        · rw [if_pos hct] at hd
          rw [if_pos trivial] at hd
          exact ih idx d hd
        · rw [if_neg hct] at hd
          exact ih idx d hd

/-- With `has_valid_attachments` true and every truthy-filename part blank,
the main pass skips every part: the blank check precedes the filename
branch, bodies are suppressed, and other parts match no branch. -/
theorem partLoop_all_skip (cfg : ProcCfg) (ro : Nat → RunOutcome) (rm : Nat → Bool) :
    ∀ (parts : List EmailPart) (idx : Nat),
    (∀ p ∈ parts, filenameTruthy p.filename = true → blankPayload p.payload = true) →
    partLoop cfg true ro rm parts idx = ⟨[], [], false, idx, none⟩ := by
  intro parts
  induction parts with
  | nil => intro idx _; rfl
  | cons p rest ih =>
    intro idx h
    have hrest := ih idx (fun q hq hf => h q (List.mem_cons_of_mem _ hq) hf)
    simp only [partLoop]
    by_cases hb : blankPayload p.payload = true
    · rw [if_pos hb]
      exact hrest
    · rw [if_neg hb]
      have hf : ¬ filenameTruthy p.filename = true := by
        intro hft
        exact hb (h p (List.mem_cons_self _ _) hft)
      rw [if_neg hf]
      by_cases hct : p.contentType = "text/plain" ∨ p.contentType = "text/html"
      · rw [if_pos hct, if_pos trivial]
        exact hrest
      · rw [if_neg hct]
        exact hrest

/-- The label appended to `printed_files` for a successful dispatch: the
bare decoded filename for an attachment, `EmailBody-<content-type>` for a
body part. -/
def printedLabelOf (d : DispatchRec) : String :=
  match d.kind with
  | .attachment => d.srcFilename.getD ""
  | .body => "EmailBody-" ++ d.srcContentType

/-- `printed_files` is exactly the successful dispatches mapped through
`printedLabelOf`, in order. -/
theorem partLoop_printed_eq (cfg : ProcCfg) (hv : Bool) (ro : Nat → RunOutcome)
    (rm : Nat → Bool) :
    ∀ (parts : List EmailPart) (idx : Nat),
    (partLoop cfg hv ro rm parts idx).printed_files =
      ((partLoop cfg hv ro rm parts idx).dispatches.filter
        (fun d => d.success)).map printedLabelOf := by
  intro parts
  induction parts with
  | nil => intro idx; simp [partLoop]
  | cons p rest ih =>
    intro idx
    simp only [partLoop]
    by_cases hb : blankPayload p.payload = true
    · rw [if_pos hb]
      exact ih idx
    · rw [if_neg hb]
      by_cases hf : filenameTruthy p.filename = true
      · rw [if_pos hf]
        by_cases hx : (!cfg.allowedTypes.isEmpty &&
            !cfg.allowedTypes.contains (extOf (p.filename.getD ""))) = true
        · rw [if_pos hx]
          exact ih idx
        · rw [if_neg hx]
          cases hpc : (print_content cfg.maxBytes (p.payload.getD [])
              (ro idx) (rm idx)).result with
          | raised e => simp [hpc, printedLabelOf]
          | ok succ =>
            cases succ <;>
              simp [hpc, ih (idx + 1), printedLabelOf, List.filter_cons]
      · rw [if_neg (by simp [hf])]
        by_cases hct : p.contentType = "text/plain" ∨ p.contentType = "text/html"
        · rw [if_pos hct]
          cases hv with
          | true =>
            rw [if_pos rfl]
            exact ih idx
          | false =>
            rw [if_neg (by simp)]
            by_cases hh : (decide (p.contentType = "text/html") &&
                is_mostly_html_blank (asciiDecode (p.payload.getD []))) = true
            · rw [if_pos hh]
              exact ih idx
            · rw [if_neg hh]
              cases hpc : (print_content cfg.maxBytes (p.payload.getD [])
                  (ro idx) (rm idx)).result with
              | raised e => simp [hpc, printedLabelOf]
              | ok succ =>
                cases succ <;>
                  simp [hpc, ih (idx + 1), printedLabelOf, List.filter_cons]
        · rw [if_neg hct]
          exact ih idx

/-- With `has_valid_attachments` false and no invocation errors, every
selectable body part (no truthy filename, printable content type, non-blank
payload, not tag-stripped-blank HTML) gets a body dispatch. -/
theorem partLoop_body_dispatched (cfg : ProcCfg) (ro : Nat → RunOutcome) (rm : Nat → Bool)
    (hro : ∀ i, ro i ≠ RunOutcome.invocationError) :
    ∀ (parts : List EmailPart) (idx : Nat) (p : EmailPart), p ∈ parts →
    filenameTruthy p.filename = false →
    (p.contentType = "text/plain" ∨ p.contentType = "text/html") →
    blankPayload p.payload = false →
    (decide (p.contentType = "text/html") &&
      is_mostly_html_blank (asciiDecode (p.payload.getD []))) = false →
    ∃ d ∈ (partLoop cfg false ro rm parts idx).dispatches,
      d.kind = PKind.body ∧ d.payload = p.payload.getD [] := by
  intro parts
  induction parts with
  | nil => intro idx p hp; simp at hp
  | cons q rest ih =>
    intro idx p hp hfn hct hnb hhtml
    simp only [partLoop]
    rcases List.mem_cons.mp hp with rfl | hp2
    · rw [if_neg (by simp [hnb])]
      rw [if_neg (by simp [hfn])]
      rw [if_pos hct]
      rw [if_neg (by simp)]
      rw [if_neg (by simp [hhtml])]
      obtain ⟨b, hb⟩ := print_content_result_ok cfg.maxBytes (p.payload.getD [])
        (ro idx) (rm idx) (hro idx)
      simp only [hb]
      refine ⟨⟨PKind.body, bodyLabel p.contentType, "txt", none,
        p.contentType, p.payload.getD [], b⟩, ?_, rfl, rfl⟩
      exact List.mem_cons_self _ _
    · by_cases hqb : blankPayload q.payload = true
      · rw [if_pos hqb]
        exact ih idx p hp2 hfn hct hnb hhtml
      · rw [if_neg hqb]
        by_cases hqf : filenameTruthy q.filename = true
        · rw [if_pos hqf]
          by_cases hqx : (!cfg.allowedTypes.isEmpty &&
              !cfg.allowedTypes.contains (extOf (q.filename.getD ""))) = true
          · rw [if_pos hqx]
            exact ih idx p hp2 hfn hct hnb hhtml
          · rw [if_neg hqx]
            obtain ⟨b, hb⟩ := print_content_result_ok cfg.maxBytes (q.payload.getD [])
              (ro idx) (rm idx) (hro idx)
            simp only [hb]
            obtain ⟨d, hd, hk, hpay⟩ := ih (idx + 1) p hp2 hfn hct hnb hhtml
            exact ⟨d, List.mem_cons_of_mem _ hd, hk, hpay⟩
        · rw [if_neg (by simp [hqf])]
          by_cases hqc : q.contentType = "text/plain" ∨ q.contentType = "text/html"
          · rw [if_pos hqc]
            rw [if_neg (by simp)]
            by_cases hqh : (decide (q.contentType = "text/html") &&
                is_mostly_html_blank (asciiDecode (q.payload.getD []))) = true
            · rw [if_pos hqh]
              exact ih idx p hp2 hfn hct hnb hhtml
            · rw [if_neg hqh]
              obtain ⟨b, hb⟩ := print_content_result_ok cfg.maxBytes (q.payload.getD [])
                (ro idx) (rm idx) (hro idx)
              simp only [hb]
              obtain ⟨d, hd, hk, hpay⟩ := ih (idx + 1) p hp2 hfn hct hnb hhtml
              exact ⟨d, List.mem_cons_of_mem _ hd, hk, hpay⟩
          · rw [if_neg hqc]
            exact ih idx p hp2 hfn hct hnb hhtml

/-- C1: authorization is fail-closed. The sender is authorized iff the
lower-cased parsed From address exactly matches an allow-list entry or the
`"@" + domain` wildcard does; an empty allow-list denies everyone; and a
denied sender returns immediately with no parts selected, nothing printed,
and no confirmation. -/
theorem claim_C1 (cfg : ProcCfg) (m : EmailMsg) (ro : Nat → RunOutcome) (rm : Nat → Bool) :
    ((process_email cfg m ro rm).authorized = true ↔
      extract_sender m ∈ cfg.allowedRecipients ∨
      ("@" ++ afterLastAt (extract_sender m)) ∈ cfg.allowedRecipients) ∧
    (cfg.allowedRecipients = [] → (process_email cfg m ro rm).authorized = false) ∧
    ((process_email cfg m ro rm).authorized = false →
      (process_email cfg m ro rm).dispatches = [] ∧
      (process_email cfg m ro rm).printed_files = [] ∧
      (process_email cfg m ro rm).confirmation = none) := by
  have hiff := is_sender_allowed_iff cfg.allowedRecipients (extract_sender m)
  by_cases h : is_sender_allowed cfg.allowedRecipients (extract_sender m) = true
  · have hg := process_email_eq_granted cfg m ro rm h
    refine ⟨?_, ?_, ?_⟩
    · rw [hg.1]
      simp only [true_iff]
      exact hiff.mp h
    · intro hemp
      rw [hemp] at h
      simp [is_sender_allowed] at h
    · intro hfa
      rw [hg.1] at hfa
      exact absurd hfa (by decide)
  · have hfalse : is_sender_allowed cfg.allowedRecipients (extract_sender m) = false :=
      Bool.eq_false_iff.mpr h
    have hd := process_email_eq_denied cfg m ro rm hfalse
    rw [hfalse] at hiff
    refine ⟨?_, fun _ => by rw [hd], fun _ => by rw [hd]; exact ⟨rfl, rfl, rfl⟩⟩
    rw [hd]
    simp only [show (false : Bool) = true ↔ False by decide, false_iff]
    intro hor
    exact absurd (hiff.mpr hor) (by decide)

/-- Witness inputs for C1: empty allow-list. -/
def w1cfg : ProcCfg := ⟨[], ["pdf"], 1000, false⟩

/-- Witness message for C1. -/
def w1msg : EmailMsg := ⟨"a@b.c", "s", [⟨"text/plain", none, some [104, 105]⟩]⟩

/-- Witness for C1: with an empty allow-list, nothing is selected, printed,
or confirmed. -/
theorem claim_C1_witness :
    (process_email w1cfg w1msg (fun _ => RunOutcome.exitZero) (fun _ => true)).dispatches = [] ∧
    (process_email w1cfg w1msg (fun _ => RunOutcome.exitZero) (fun _ => true)).printed_files = [] ∧
    (process_email w1cfg w1msg (fun _ => RunOutcome.exitZero) (fun _ => true)).confirmation = none := by
  have h := claim_C1 w1cfg w1msg (fun _ => RunOutcome.exitZero) (fun _ => true)
  exact h.2.2 (h.2.1 rfl)

/-- C3: as soon as one leaf part has a truthy filename passing the
extension filter, no body part is ever dispatched — whatever the print
outcomes (in particular when every attachment fails to print). -/
theorem claim_C3 (cfg : ProcCfg) (m : EmailMsg) (ro : Nat → RunOutcome) (rm : Nat → Bool)
    (p : EmailPart) (hp : p ∈ m.parts)
    (hmt : maintypeOf p.contentType ≠ "multipart")
    (hf : filenameTruthy p.filename = true)
    (hext : (cfg.allowedTypes.isEmpty || cfg.allowedTypes.contains (extOf (p.filename.getD ""))) = true) :
    ∀ d ∈ (process_email cfg m ro rm).dispatches, d.kind = PKind.attachment := by
  intro d hd
  have hv : has_valid_attachments cfg.allowedTypes m.parts = true :=
    has_valid_of_mem cfg.allowedTypes m.parts p hp hmt hf hext
  by_cases ha : is_sender_allowed cfg.allowedRecipients (extract_sender m) = true
  · have he := (process_email_eq_granted cfg m ro rm ha).2.1
    rw [hv] at he
    rw [he] at hd
    exact partLoop_no_body cfg ro rm m.parts 0 d hd
  · have hfalse : is_sender_allowed cfg.allowedRecipients (extract_sender m) = false :=
      Bool.eq_false_iff.mpr ha
    rw [process_email_eq_denied cfg m ro rm hfalse] at hd
    simp at hd

/-- Witness config for C3. -/
def w3cfg : ProcCfg := ⟨["a@b.c"], ["pdf"], 1000, false⟩

/-- Witness attachment part for C3. -/
def w3att : EmailPart := ⟨"application/pdf", some "doc.pdf", some [37, 80]⟩

/-- Witness message for C3: a passing attachment plus a non-blank body. -/
def w3msg : EmailMsg := ⟨"a@b.c", "s", [w3att, ⟨"text/plain", none, some [104, 105]⟩]⟩

/-- Witness for C3: every dispatch is an attachment even though the
attachment print fails. -/
theorem claim_C3_witness :
    ((process_email w3cfg w3msg (fun _ => RunOutcome.exitNonZero) (fun _ => true)).dispatches.all
      (fun d => d.kind == PKind.attachment)) = true := by
  have h := claim_C3 w3cfg w3msg (fun _ => RunOutcome.exitNonZero) (fun _ => true)
    w3att (by decide) (by decide) (by decide) (by decide)
  rw [List.all_eq_true]
  intro d hd
  simp [h d hd]

/-- Counterexample config for C8: the boss scenario of the spec. -/
def c8cfg : ProcCfg := ⟨["boss@corp.com"], ["pdf"], 1000, false⟩

/-- Counterexample message for C8: one `.pdf` attachment, mixed-case From. -/
def c8msg : EmailMsg :=
  ⟨"BOSS@Corp.com", "s", [⟨"application/pdf", some "file.pdf", some [37, 80, 68, 70]⟩]⟩

/-- C8 counterexample: in the boss scenario the notifier receives the bare
filename, not the dispatch log label. `printed_files` — the
succeeded-labels sequence passed to `send_confirmation_email` — is
`["file.pdf"]`, and the claimed label `attachment 'file.pdf'` is absent. -/
theorem claim_C8_counterexample :
    (process_email c8cfg c8msg (fun _ => RunOutcome.exitZero) (fun _ => true)).printed_files =
      ["file.pdf"] ∧
    ("attachment " ++ sQuote ++ "file.pdf" ++ sQuote) ∉
      (process_email c8cfg c8msg (fun _ => RunOutcome.exitZero) (fun _ => true)).printed_files := by
  decide

/-- C8 amended: the succeeded-labels sequence passed to the notifier is the
successful dispatches in order, labelled with the bare decoded filename for
an attachment (the string `attachment '<filename>'` is only the dispatch
log description) and with `EmailBody-<content-type>` for a body part. -/
theorem claim_C8_amended (cfg : ProcCfg) (m : EmailMsg) (ro : Nat → RunOutcome)
    (rm : Nat → Bool) :
    (process_email cfg m ro rm).printed_files =
      (((process_email cfg m ro rm).dispatches.filter
        (fun d => d.success)).map printedLabelOf) := by
  by_cases h : is_sender_allowed cfg.allowedRecipients (extract_sender m) = true
  · have hg := process_email_eq_granted cfg m ro rm h
    rw [hg.2.1, hg.2.2.1]
    exact partLoop_printed_eq cfg (has_valid_attachments cfg.allowedTypes m.parts)
      ro rm m.parts 0
  · have hfalse : is_sender_allowed cfg.allowedRecipients (extract_sender m) = false :=
      Bool.eq_false_iff.mpr h
    rw [process_email_eq_denied cfg m ro rm hfalse]
    rfl

/-- Counterexample config for C9: non-empty extension allow-list. -/
def c9cfg : ProcCfg := ⟨["a@b.c"], ["pdf"], 1000, false⟩

/-- Counterexample message for C9: its only attachment is rejected by the
extension filter, and it carries a non-blank plain-text body. -/
def c9msg : EmailMsg :=
  ⟨"a@b.c", "s",
   [⟨"application/octet-stream", some "virus.exe", some [77, 90]⟩,
    ⟨"text/plain", none, some [104, 105]⟩]⟩

/-- C9 counterexample: when every attachment is rejected by the extension
allow-list, the body is NOT suppressed — the first pass applies the same
extension filter, leaves `has_valid_attachments` false, and the body part
is selected and printed. -/
theorem claim_C9_counterexample :
    ((process_email c9cfg c9msg (fun _ => RunOutcome.exitZero) (fun _ => true)).dispatches.map
      (fun d => d.kind)) = [PKind.body] ∧
    (process_email c9cfg c9msg (fun _ => RunOutcome.exitZero) (fun _ => true)).printed_files =
      ["EmailBody-text/plain"] := by
  decide

/-- C9 amended: for an authorized message whose truthy-filename parts are
all rejected by a non-empty extension allow-list, `has_valid_attachments`
is false (the first pass applies the same extension filter as the main
pass), so body parts are NOT suppressed: absent invocation errors, every
selectable body part is dispatched. -/
theorem claim_C9_amended (cfg : ProcCfg) (m : EmailMsg) (ro : Nat → RunOutcome)
    (rm : Nat → Bool)
    (hne : cfg.allowedTypes ≠ [])
    (hrej : ∀ p ∈ m.parts, filenameTruthy p.filename = true →
      cfg.allowedTypes.contains (extOf (p.filename.getD "")) = false)
    (hro : ∀ i, ro i ≠ RunOutcome.invocationError)
    (p : EmailPart) (hp : p ∈ m.parts)
    (hfn : filenameTruthy p.filename = false)
    (hct : p.contentType = "text/plain" ∨ p.contentType = "text/html")
    (hnb : blankPayload p.payload = false)
    (hhtml : (decide (p.contentType = "text/html") &&
      is_mostly_html_blank (asciiDecode (p.payload.getD []))) = false)
    (hauth : is_sender_allowed cfg.allowedRecipients (extract_sender m) = true) :
    has_valid_attachments cfg.allowedTypes m.parts = false ∧
    ∃ d ∈ (process_email cfg m ro rm).dispatches,
      d.kind = PKind.body ∧ d.payload = p.payload.getD [] := by
  have hv := has_valid_false_of cfg.allowedTypes hne m.parts hrej
  refine ⟨hv, ?_⟩
  have he := (process_email_eq_granted cfg m ro rm hauth).2.1
  rw [hv] at he
  rw [he]
  exact partLoop_body_dispatched cfg ro rm hro m.parts 0 p hp hfn hct hnb hhtml

/-- Witness for C9 amended at the counterexample inputs: the first pass is
false and a body dispatch for the text body exists. -/
theorem claim_C9_witness :
    has_valid_attachments c9cfg.allowedTypes c9msg.parts = false ∧
    ((process_email c9cfg c9msg (fun _ => RunOutcome.exitZero) (fun _ => true)).dispatches.any
      (fun d => d.kind == PKind.body && d.payload == [104, 105])) = true := by
  have h := claim_C9_amended c9cfg c9msg (fun _ => RunOutcome.exitZero) (fun _ => true)
    (by decide) (by decide) (fun i h => RunOutcome.noConfusion h)
    ⟨"text/plain", none, some [104, 105]⟩ (by decide) (by decide)
    (Or.inl rfl) (by decide) (by decide) (by decide)
  refine ⟨h.1, ?_⟩
  obtain ⟨d, hd, hk, hpay⟩ := h.2
  rw [List.any_eq_true]
  exact ⟨d, hd, by simp [hk, hpay]⟩

/-- C10: an attachment whose extension passes the filter sets the first
pass flag even when its payload is blank (the first pass never inspects
payloads), so bodies are suppressed; if moreover every truthy-filename part
is blank, nothing is dispatched at all and the confirmation (in summary
mode) is the "no files printed" message. -/
theorem claim_C10 (cfg : ProcCfg) (m : EmailMsg) (ro : Nat → RunOutcome) (rm : Nat → Bool)
    (hatt : ∃ p ∈ m.parts, maintypeOf p.contentType ≠ "multipart" ∧
      filenameTruthy p.filename = true ∧
      (cfg.allowedTypes.isEmpty || cfg.allowedTypes.contains (extOf (p.filename.getD ""))) = true)
    (hblank : ∀ p ∈ m.parts, filenameTruthy p.filename = true → blankPayload p.payload = true)
    (hauth : is_sender_allowed cfg.allowedRecipients (extract_sender m) = true) :
    has_valid_attachments cfg.allowedTypes m.parts = true ∧
    (process_email cfg m ro rm).dispatches = [] ∧
    (process_email cfg m ro rm).printed_files = [] ∧
    (process_email cfg m ro rm).printed_any = false ∧
    (cfg.detailedConfirmation = false →
      (process_email cfg m ro rm).confirmation =
        some ⟨extract_sender m, ConfirmBody.noFiles⟩) := by
  obtain ⟨p, hp, hmt, hf, hext⟩ := hatt
  have hv : has_valid_attachments cfg.allowedTypes m.parts = true :=
    has_valid_of_mem cfg.allowedTypes m.parts p hp hmt hf hext
  have hloop := partLoop_all_skip cfg ro rm m.parts 0 hblank
  have hg := process_email_eq_granted cfg m ro rm hauth
  have hd : (process_email cfg m ro rm).dispatches = [] := by
    rw [hg.2.1, hv, hloop]
  have hpf : (process_email cfg m ro rm).printed_files = [] := by
    rw [hg.2.2.1, hv, hloop]
  have hpa : (process_email cfg m ro rm).printed_any = false := by
    rw [hg.2.2.2, hv, hloop]
  refine ⟨hv, hd, hpf, hpa, ?_⟩
  intro hdet
  have hx : (partLoop cfg (has_valid_attachments cfg.allowedTypes m.parts)
      ro rm m.parts 0).exc = none := by
    rw [hv, hloop]
  have hc := process_email_confirmation cfg m ro rm hauth hx
  rw [hc]
  rw [show (partLoop cfg (has_valid_attachments cfg.allowedTypes m.parts)
      ro rm m.parts 0).printed_files = [] from by rw [hv, hloop]]
  simp [send_confirmation_email, hdet]

/-- Witness config for C10. -/
def w10cfg : ProcCfg := ⟨["x@y.z"], ["pdf"], 1000, false⟩

/-- Witness message for C10: a whitespace-only `.pdf` attachment plus a
non-blank plain-text body. -/
def w10msg : EmailMsg :=
  ⟨"x@y.z", "s",
   [⟨"application/pdf", some "empty.pdf", some [32, 9]⟩,
    ⟨"text/plain", none, some [104, 105]⟩]⟩

/-- Witness for C10: zero dispatches, zero printed files, and the no-files
confirmation, despite the non-blank text body. -/
theorem claim_C10_witness :
    has_valid_attachments w10cfg.allowedTypes w10msg.parts = true ∧
    (process_email w10cfg w10msg (fun _ => RunOutcome.exitZero) (fun _ => true)).dispatches = [] ∧
    (process_email w10cfg w10msg (fun _ => RunOutcome.exitZero) (fun _ => true)).printed_files = [] ∧
    (process_email w10cfg w10msg (fun _ => RunOutcome.exitZero) (fun _ => true)).confirmation =
      some ⟨"x@y.z", ConfirmBody.noFiles⟩ := by
  have h := claim_C10 w10cfg w10msg (fun _ => RunOutcome.exitZero) (fun _ => true)
    (by decide) (by decide) (by decide)
  refine ⟨h.1, h.2.1, h.2.2.1, ?_⟩
  have hc := h.2.2.2.2 rfl
  rw [hc]
  decide

/-- C2: every cycle observes the fixed sleep interval; any exception
escaping the cycle body is caught at the boundary (so the trace stream is
total and the loop continues); and a cycle whose session fails to open
performs zero fetches, zero dispatches, and zero notifications. -/
theorem claim_C2 (cfg : CycleCfg) (envs : Nat → CycleEnv) (n : Nat) :
    (main_loop_trace cfg envs n).slept = cfg.sleepTime ∧
    (∀ e, (cycleBody cfg (envs n)).exc = some e →
      (main_loop_trace cfg envs n).caught = true) ∧
    (sessionOpenFailed cfg (envs n) = true →
      (main_loop_trace cfg envs n).fetches = 0 ∧
      (main_loop_trace cfg envs n).dispatches = 0 ∧
      (main_loop_trace cfg envs n).notifications = 0) := by
  refine ⟨rfl, ?_, ?_⟩
  · intro e he
    simp [main_loop_trace, runCycle, he]
  · intro hs
    unfold sessionOpenFailed at hs
    simp only [main_loop_trace, runCycle]
    unfold cycleBody
    cases hres : (connect_imap_with_retry cfg.maxRetries cfg.retryDelay
        (envs n).connectOk).result with
    | connected k =>
      rw [hres] at hs
      simp at hs
    | raised => simp
    | fellThrough => simp

/-- Witness process config for C2. -/
def w2pcfg : ProcCfg := ⟨[], [], 10, false⟩

/-- Witness cycle config for C2: one retry, 7-second sleep. -/
def w2cfg : CycleCfg := ⟨1, 5, 7, false, w2pcfg⟩

/-- Witness environment for C2: the single connection attempt fails. -/
def w2env : CycleEnv := ⟨fun _ => false, false, false, [], false, []⟩

/-- Witness for C2: a session-open failure is caught, nothing is fetched,
dispatched or notified, and the cycle still sleeps the configured 7s. -/
theorem claim_C2_witness :
    (main_loop_trace w2cfg (fun _ => w2env) 0).slept = 7 ∧
    (main_loop_trace w2cfg (fun _ => w2env) 0).caught = true ∧
    (main_loop_trace w2cfg (fun _ => w2env) 0).fetches = 0 ∧
    (main_loop_trace w2cfg (fun _ => w2env) 0).dispatches = 0 ∧
    (main_loop_trace w2cfg (fun _ => w2env) 0).notifications = 0 := by
  have h := claim_C2 w2cfg (fun _ => w2env) 0
  have h3 := h.2.2 (by decide)
  have h2 := h.2.1 PyExc.imapError (by decide)
  exact ⟨h.1, h2, h3.1, h3.2.1, h3.2.2⟩
